import Mathlib

/-!
Verification of the FOEDUS page pool (`foedus/memory/page_pool_pimpl.cpp`) and
snapshot manager (`foedus/snapshot/snapshot_manager_pimpl.cpp`).

The page pool is a circular free-list over an array of page offsets; `grab`
takes offsets from the head of the circular queue, `release` appends offsets
taken from the tail of a caller chunk to the tail of the queue.  The snapshot
manager runs a sequence of phases (glean, metadata, savepoint,
replace-pointers) and publishes the new snapshot epoch only after all of them
succeed.
-/

namespace Foedus

/-- Error codes of the engine that the page pool uses
(`kErrorCodeOk`, `kErrorCodeMemoryNoFreePages`, `kErrorCodeMemoryDuplicatePage`). -/
inductive ErrorCode
  | kErrorCodeOk
  | kErrorCodeMemoryNoFreePages
  | kErrorCodeMemoryDuplicatePage
deriving DecidableEq

/-- Modelled from the spec: `PagePoolOffsetChunk` (the class body is not in the
sources, only its callers): a bounded buffer of page offsets.  `buf` is the
current content in order, `capacity` its bound. -/
structure PagePoolOffsetChunk where
  buf : List Nat
  capacity : Nat
deriving DecidableEq

/-- Modelled from the spec: `PagePoolOffsetChunk::push_back(from, to)` appends
a contiguous range of offsets to the chunk. -/
def PagePoolOffsetChunk.push_back (c : PagePoolOffsetChunk) (xs : List Nat) :
    PagePoolOffsetChunk :=
  { c with buf := c.buf ++ xs }

/-- Modelled from the spec: `PagePoolOffsetChunk::move_to(dest, count)` removes
`cnt` offsets from the tail of the chunk and hands them over (here: returns the
moved segment together with the shrunk chunk). -/
def PagePoolOffsetChunk.moveTo (c : PagePoolOffsetChunk) (cnt : Nat) :
    List Nat × PagePoolOffsetChunk :=
  (c.buf.drop (c.buf.length - cnt), { c with buf := c.buf.take (c.buf.length - cnt) })

/-- State of `PagePoolPimpl`: the free-list array (`free_pool_`, length
`free_pool_capacity_`) used as a circular queue with cursor `free_pool_head_`
and fill `free_pool_count_`. -/
structure PagePool where
  free_pool : List Nat
  free_pool_capacity : Nat
  free_pool_head : Nat
  free_pool_count : Nat
deriving DecidableEq

/-- Contiguous slice of a list: `n` elements starting at index `i`. -/
def slice (l : List Nat) (i n : Nat) : List Nat := (l.drop i).take n

/-- Overwrite `l` at position `pos` with the segment `seg`
(what a `memcpy` into `free_pool_ + pos` does). -/
def writeSeg (l : List Nat) (pos : Nat) (seg : List Nat) : List Nat :=
  l.take pos ++ (seg ++ l.drop (pos + seg.length))

/-- The live window of the circular free list: the `free_pool_count` entries
starting at `free_pool_head`, wrapping around past `free_pool_capacity`. -/
def liveWindow (p : PagePool) : List Nat :=
  if p.free_pool_head + p.free_pool_count ≤ p.free_pool_capacity then
    slice p.free_pool p.free_pool_head p.free_pool_count
  else
    slice p.free_pool p.free_pool_head (p.free_pool_capacity - p.free_pool_head) ++
      slice p.free_pool 0 (p.free_pool_head + p.free_pool_count - p.free_pool_capacity)

/-- Structural well-formedness of a pool state, as established by
`initialize_once` and maintained by `grab`/`release`. -/
def PoolWf (p : PagePool) : Prop :=
  p.free_pool.length = p.free_pool_capacity ∧
  p.free_pool_head ≤ p.free_pool_capacity ∧
  p.free_pool_count ≤ p.free_pool_capacity

instance (p : PagePool) : Decidable (PoolWf p) := by
  unfold PoolWf; infer_instance

/-- `PagePoolPimpl::grab(desired_grab_count, chunk)`: on an empty free pool
returns `kErrorCodeMemoryNoFreePages`; otherwise transfers
`min(desired, free_pool_count)` offsets from the head of the circular queue
into the chunk, in up to two segments when the head wraps around. -/
def grab (desired : Nat) (p : PagePool) (c : PagePoolOffsetChunk) :
    ErrorCode × PagePool × PagePoolOffsetChunk :=
  if p.free_pool_count = 0 then
    (ErrorCode.kErrorCodeMemoryNoFreePages, p, c)
  else
    let grab_count := min desired p.free_pool_count
    if p.free_pool_head + grab_count > p.free_pool_capacity then
      -- wrap around
      let wrap_count := p.free_pool_capacity - p.free_pool_head
      let c1 := c.push_back (slice p.free_pool p.free_pool_head wrap_count)
      let grab2 := grab_count - wrap_count
      let c2 := c1.push_back (slice p.free_pool 0 grab2)
      (ErrorCode.kErrorCodeOk,
        { p with free_pool_head := grab2,
                 free_pool_count := p.free_pool_count - grab_count }, c2)
    else
      (ErrorCode.kErrorCodeOk,
        { p with free_pool_head := p.free_pool_head + grab_count,
                 free_pool_count := p.free_pool_count - grab_count },
        c.push_back (slice p.free_pool p.free_pool_head grab_count))

/-- `PagePoolPimpl::release(desired_release_count, chunk)`: if appending
`desired` offsets would exceed `free_pool_capacity` the pool is inconsistent
and the code aborts via `COERCE_ERROR(kErrorCodeMemoryDuplicatePage)`
(modelled as `Except.error`); otherwise `min(desired, chunk.size)` offsets are
moved from the tail of the chunk to the tail of the circular queue, in up to
two segments when the tail wraps around. -/
def release (desired : Nat) (p : PagePool) (c : PagePoolOffsetChunk) :
    Except ErrorCode (PagePool × PagePoolOffsetChunk) :=
  if p.free_pool_count + desired > p.free_pool_capacity then
    Except.error ErrorCode.kErrorCodeMemoryDuplicatePage
  else
    let release_count := min desired c.buf.length
    let tail0 := p.free_pool_head + p.free_pool_count
    let tail1 := if tail0 ≥ p.free_pool_capacity then tail0 - p.free_pool_capacity else tail0
    if tail1 + release_count > p.free_pool_capacity then
      -- wrap around
      let wrap_count := p.free_pool_capacity - tail1
      let m1 := c.moveTo wrap_count
      let fp1 := writeSeg p.free_pool tail1 m1.1
      let rc2 := release_count - wrap_count
      let m2 := m1.2.moveTo rc2
      let fp2 := writeSeg fp1 0 m2.1
      Except.ok ({ p with free_pool := fp2,
                          free_pool_count := p.free_pool_count + release_count }, m2.2)
    else
      let m1 := c.moveTo release_count
      Except.ok ({ p with free_pool := writeSeg p.free_pool tail1 m1.1,
                          free_pool_count := p.free_pool_count + release_count }, m1.2)

/-- The pool state right after `initialize_once`: the free pool holds the
offsets `pages_for_free_pool + i` for `i < pool_size - pages_for_free_pool`,
the head is `0` and the pool is full. -/
def initPool (pfp psize : Nat) : PagePool :=
  { free_pool := (List.range (psize - pfp)).map (fun i => pfp + i)
  , free_pool_capacity := psize - pfp
  , free_pool_head := 0
  , free_pool_count := psize - pfp }

/-! ### List algebra for the circular queue -/

theorem take_append_of_le (l₁ l₂ : List Nat) (n : Nat) (h : n ≤ l₁.length) :
    (l₁ ++ l₂).take n = l₁.take n := by
  rw [List.take_append_eq_append_take, Nat.sub_eq_zero_of_le h, List.take_zero,
    List.append_nil]

theorem drop_append_of_le (l₁ l₂ : List Nat) (n : Nat) (h : n ≤ l₁.length) :
    (l₁ ++ l₂).drop n = l₁.drop n ++ l₂ := by
  rw [List.drop_append_eq_append_drop, Nat.sub_eq_zero_of_le h, List.drop_zero]

theorem drop_take_comm (l : List Nat) (m n : Nat) :
    (l.take m).drop n = (l.drop n).take (m - n) := by
  rw [List.drop_take]

theorem slice_length (l : List Nat) (i n : Nat) :
    (slice l i n).length = min n (l.length - i) := by
  simp [slice]

theorem slice_take (l : List Nat) (i n m : Nat) :
    (slice l i n).take m = slice l i (min m n) := by
  simp [slice, List.take_take]

theorem slice_drop (l : List Nat) (i n m : Nat) :
    (slice l i n).drop m = slice l (i + m) (n - m) := by
  simp only [slice, drop_take_comm, List.drop_drop]

theorem slice_full (l : List Nat) (i n : Nat) (h : l.length ≤ i + n) :
    slice l i n = l.drop i := by
  unfold slice
  exact List.take_of_length_le (by simp; omega)

theorem liveWindow_length (p : PagePool) (hwf : PoolWf p) :
    (liveWindow p).length = p.free_pool_count := by
  obtain ⟨hl, hh, hc⟩ := hwf
  unfold liveWindow
  split
  · simp only [slice_length, hl]
    omega
  · simp only [List.length_append, slice_length, hl]
    omega

/-- Taking the first `g` elements of the live window when the grab does not
wrap: they form a single contiguous slice at the head. -/
theorem liveWindow_take_nowrap (p : PagePool) (g : Nat) (hwf : PoolWf p)
    (hg : g ≤ p.free_pool_count)
    (h : p.free_pool_head + g ≤ p.free_pool_capacity) :
    (liveWindow p).take g = slice p.free_pool p.free_pool_head g := by
  obtain ⟨hl, hh, hc⟩ := hwf
  unfold liveWindow
  split
  · rw [slice_take, Nat.min_eq_left hg]
  · rw [take_append_of_le _ _ _ (by rw [slice_length, hl]; omega),
      slice_take, Nat.min_eq_left (by omega)]

/-- Dropping the first `g` elements of the live window when the grab does not
wrap yields the live window of the advanced pool. -/
theorem liveWindow_drop_nowrap (p : PagePool) (g : Nat) (hwf : PoolWf p)
    (hg : g ≤ p.free_pool_count)
    (h : p.free_pool_head + g ≤ p.free_pool_capacity) :
    (liveWindow p).drop g =
      liveWindow { p with free_pool_head := p.free_pool_head + g,
                          free_pool_count := p.free_pool_count - g } := by
  obtain ⟨hl, hh, hc⟩ := hwf
  unfold liveWindow
  by_cases hone : p.free_pool_head + p.free_pool_count ≤ p.free_pool_capacity
  · rw [if_pos hone, if_pos (by simp; omega)]
    simp only [slice_drop]
  · rw [if_neg hone, if_neg (by simp; omega)]
    rw [drop_append_of_le _ _ _ (by rw [slice_length, hl]; omega), slice_drop]
    simp only
    have e1 : p.free_pool_capacity - p.free_pool_head - g
        = p.free_pool_capacity - (p.free_pool_head + g) := by omega
    have e2 : p.free_pool_head + p.free_pool_count - p.free_pool_capacity
        = p.free_pool_head + g + (p.free_pool_count - g) - p.free_pool_capacity := by
      omega
    rw [e1, e2]

/-- Taking the first `g` elements of the live window when the grab wraps:
they form the head-to-capacity slice followed by a slice at the start. -/
theorem liveWindow_take_wrap (p : PagePool) (g : Nat) (hwf : PoolWf p)
    (hg : g ≤ p.free_pool_count)
    (h : p.free_pool_capacity < p.free_pool_head + g) :
    (liveWindow p).take g =
      slice p.free_pool p.free_pool_head (p.free_pool_capacity - p.free_pool_head) ++
        slice p.free_pool 0 (g - (p.free_pool_capacity - p.free_pool_head)) := by
  obtain ⟨hl, hh, hc⟩ := hwf
  unfold liveWindow
  rw [if_neg (by omega)]
  rw [List.take_append_eq_append_take, slice_length, hl]
  have e1 : min (p.free_pool_capacity - p.free_pool_head)
      (p.free_pool_capacity - p.free_pool_head) = p.free_pool_capacity - p.free_pool_head :=
    Nat.min_self _
  rw [e1, List.take_of_length_le (by rw [slice_length, hl]; omega), slice_take,
    Nat.min_eq_left (by omega)]

/-- Dropping the first `g` elements of the live window when the grab wraps
yields the live window of the pool whose head moved to the wrapped position. -/
theorem liveWindow_drop_wrap (p : PagePool) (g : Nat) (hwf : PoolWf p)
    (hg : g ≤ p.free_pool_count)
    (h : p.free_pool_capacity < p.free_pool_head + g) :
    (liveWindow p).drop g =
      liveWindow { p with
        free_pool_head := g - (p.free_pool_capacity - p.free_pool_head),
        free_pool_count := p.free_pool_count - g } := by
  obtain ⟨hl, hh, hc⟩ := hwf
  unfold liveWindow
  rw [if_neg (by omega), if_pos (by simp; omega)]
  rw [List.drop_append_eq_append_drop, slice_length, hl]
  have e1 : min (p.free_pool_capacity - p.free_pool_head)
      (p.free_pool_capacity - p.free_pool_head) = p.free_pool_capacity - p.free_pool_head :=
    Nat.min_self _
  rw [e1, List.drop_eq_nil_of_le (by rw [slice_length, hl]; omega), slice_drop]
  simp only [List.nil_append, Nat.zero_add]
  have e2 : p.free_pool_head + p.free_pool_count - p.free_pool_capacity -
      (g - (p.free_pool_capacity - p.free_pool_head)) = p.free_pool_count - g := by
    omega
  rw [e2]

theorem slice_split (l : List Nat) (i m n : Nat) :
    slice l i (m + n) = slice l i m ++ slice l (i + m) n := by
  simp only [slice, List.take_add, drop_take_comm, List.drop_drop]

theorem writeSeg_nil (l : List Nat) (pos : Nat) : writeSeg l pos [] = l := by
  simp [writeSeg]

theorem writeSeg_length (l : List Nat) (pos : Nat) (seg : List Nat)
    (h : pos + seg.length ≤ l.length) : (writeSeg l pos seg).length = l.length := by
  simp [writeSeg]
  omega

/-- A slice entirely to the left of the written region is unchanged. -/
theorem slice_writeSeg_left (l : List Nat) (pos : Nat) (seg : List Nat) (i n : Nat)
    (hin : i + n ≤ pos) (hpos : pos ≤ l.length) :
    slice (writeSeg l pos seg) i n = slice l i n := by
  have hlt : (l.take pos).length = pos := by rw [List.length_take]; omega
  unfold writeSeg slice
  rw [drop_append_of_le _ _ _ (by omega), take_append_of_le _ _ _ (by
    rw [List.length_drop, hlt]; omega)]
  rw [drop_take_comm, List.take_take, Nat.min_eq_left (by omega)]

/-- The slice at the written region is the written segment. -/
theorem slice_writeSeg_at (l : List Nat) (pos : Nat) (seg : List Nat)
    (hpos : pos ≤ l.length) :
    slice (writeSeg l pos seg) pos seg.length = seg := by
  have hlt : (l.take pos).length = pos := by rw [List.length_take]; omega
  unfold writeSeg slice
  rw [drop_append_of_le _ _ _ (by omega), List.drop_of_length_le (by omega),
    List.nil_append, take_append_of_le _ _ _ (by omega), List.take_length]

/-- A slice entirely to the right of the written region is unchanged. -/
theorem slice_writeSeg_right (l : List Nat) (pos : Nat) (seg : List Nat) (i n : Nat)
    (hin : pos + seg.length ≤ i) (hpos : pos ≤ l.length) :
    slice (writeSeg l pos seg) i n = slice l i n := by
  have hlt : (l.take pos).length = pos := by rw [List.length_take]; omega
  unfold writeSeg slice
  rw [List.drop_append_eq_append_drop, List.drop_of_length_le (by omega), List.nil_append,
    List.drop_append_eq_append_drop, List.drop_of_length_le (by omega), List.nil_append,
    List.drop_drop, hlt]
  congr 2
  omega

/-- Appending a segment at the tail of the queue when the tail does not wrap:
the live window is extended by the segment. -/
theorem liveWindow_write_nowrap (p : PagePool) (seg : List Nat) (hwf : PoolWf p)
    (hfit : p.free_pool_head + p.free_pool_count + seg.length ≤ p.free_pool_capacity) :
    liveWindow { p with
      free_pool := writeSeg p.free_pool (p.free_pool_head + p.free_pool_count) seg,
      free_pool_count := p.free_pool_count + seg.length }
      = liveWindow p ++ seg := by
  obtain ⟨hl, hh, hc⟩ := hwf
  unfold liveWindow
  rw [if_pos (by simp only; omega), if_pos (by omega)]
  simp only
  rw [slice_split _ _ p.free_pool_count seg.length]
  congr 1
  · exact slice_writeSeg_left _ _ _ _ _ (Nat.le_refl _) (by omega)
  · exact slice_writeSeg_at _ _ _ (by omega)

/-- Appending a segment at the tail when the physical tail cursor has already
wrapped past the capacity (`tail0 ≥ capacity` in `release`): the write lands
in the hole `[tail0 - capacity, head)` and extends the live window. -/
theorem liveWindow_write_wrapped_tail (p : PagePool) (seg : List Nat) (hwf : PoolWf p)
    (ht : p.free_pool_capacity ≤ p.free_pool_head + p.free_pool_count)
    (hfit : p.free_pool_count + seg.length ≤ p.free_pool_capacity) :
    liveWindow { p with
      free_pool := writeSeg p.free_pool
        (p.free_pool_head + p.free_pool_count - p.free_pool_capacity) seg,
      free_pool_count := p.free_pool_count + seg.length }
      = liveWindow p ++ seg := by
  obtain ⟨hl, hh, hc⟩ := hwf
  rcases Nat.eq_zero_or_pos seg.length with hs | hs
  · rw [List.length_eq_zero] at hs
    subst hs
    simp [liveWindow, writeSeg_nil]
  · unfold liveWindow
    rw [if_neg (by simp only; omega)]
    simp only
    have e2 : p.free_pool_head + (p.free_pool_count + seg.length) - p.free_pool_capacity
        = (p.free_pool_head + p.free_pool_count - p.free_pool_capacity) + seg.length := by
      omega
    rw [e2, slice_split, slice_writeSeg_right _ _ _ _ _ (by omega) (by omega),
      slice_writeSeg_left _ _ _ _ _ (by omega) (by omega), Nat.zero_add,
      slice_writeSeg_at _ _ _ (by omega)]
    by_cases hone : p.free_pool_head + p.free_pool_count ≤ p.free_pool_capacity
    · rw [if_pos hone]
      have e3 : p.free_pool_head + p.free_pool_count - p.free_pool_capacity = 0 := by omega
      have e4 : p.free_pool_capacity - p.free_pool_head = p.free_pool_count := by omega
      rw [e3, e4]
      simp [slice]
    · rw [if_neg hone, List.append_assoc]

/-- Appending a segment at the tail when the write itself wraps around the
capacity boundary: the tail part of the chunk (`segB`) fills the queue up to
the capacity and the rest (`segA`) lands at position 0. -/
theorem liveWindow_write_wrap (p : PagePool) (segA segB : List Nat) (hwf : PoolWf p)
    (ht : p.free_pool_head + p.free_pool_count < p.free_pool_capacity)
    (hw : segB.length = p.free_pool_capacity - (p.free_pool_head + p.free_pool_count))
    (hfit : p.free_pool_count + segB.length + segA.length ≤ p.free_pool_capacity) :
    liveWindow { p with
      free_pool := writeSeg
        (writeSeg p.free_pool (p.free_pool_head + p.free_pool_count) segB) 0 segA,
      free_pool_count := p.free_pool_count + (segB.length + segA.length) }
      = liveWindow p ++ segB ++ segA := by
  obtain ⟨hl, hh, hc⟩ := hwf
  have hlen1 : (writeSeg p.free_pool (p.free_pool_head + p.free_pool_count) segB).length
      = p.free_pool.length := writeSeg_length _ _ _ (by omega)
  rcases Nat.eq_zero_or_pos segA.length with ha | ha
  · rw [List.length_eq_zero] at ha
    subst ha
    simp only [List.length_nil, Nat.add_zero, writeSeg_nil, List.append_nil]
    exact liveWindow_write_nowrap p segB ⟨hl, hh, hc⟩ (by omega)
  · unfold liveWindow
    rw [if_neg (by simp only; omega), if_pos (by omega)]
    simp only
    have e2 : p.free_pool_head + (p.free_pool_count + (segB.length + segA.length))
        - p.free_pool_capacity = segA.length := by omega
    rw [e2, slice_writeSeg_at _ _ _ (by omega)]
    have e3 : p.free_pool_capacity - p.free_pool_head
        = p.free_pool_count + segB.length := by omega
    rw [e3, slice_writeSeg_right _ _ _ _ _ (by omega) (by omega),
      slice_split _ _ p.free_pool_count segB.length]
    rw [slice_writeSeg_left _ _ _ _ _ (Nat.le_refl _) (by omega),
      slice_writeSeg_at _ _ _ (by omega)]

/-- Full characterization of a non-aborting `release` under its preconditions:
it removes exactly `desired` offsets from the tail of the chunk, increases
`free_pool_count` by exactly `desired`, and extends the live window by exactly
the removed offsets (up to the arrangement of the two wrap segments). -/
theorem release_spec (desired : Nat) (p : PagePool) (c : PagePoolOffsetChunk)
    (hwf : PoolWf p) (hd : desired ≤ c.buf.length)
    (hcap : p.free_pool_count + desired ≤ p.free_pool_capacity) :
    ∃ p', release desired p c
        = Except.ok (p', { c with buf := c.buf.take (c.buf.length - desired) }) ∧
      p'.free_pool_capacity = p.free_pool_capacity ∧
      p'.free_pool_head = p.free_pool_head ∧
      p'.free_pool_count = p.free_pool_count + desired ∧
      PoolWf p' ∧
      (liveWindow p').Perm (liveWindow p ++ c.buf.drop (c.buf.length - desired)) := by
  obtain ⟨hl, hh, hc⟩ := hwf
  have hmin : min desired c.buf.length = desired := Nat.min_eq_left hd
  have hseglen : (c.buf.drop (c.buf.length - desired)).length = desired := by
    rw [List.length_drop]; omega
  simp only [release, PagePoolOffsetChunk.moveTo, hmin,
    if_neg (by omega : ¬ (p.free_pool_count + desired > p.free_pool_capacity))]
  by_cases hA : p.free_pool_head + p.free_pool_count ≥ p.free_pool_capacity
  · rw [if_pos hA,
      if_neg (show ¬ (p.free_pool_head + p.free_pool_count - p.free_pool_capacity
        + desired > p.free_pool_capacity) by omega)]
    refine ⟨_, rfl, rfl, rfl, rfl, ⟨?_, ?_, ?_⟩, ?_⟩
    · try simp only
      rw [writeSeg_length _ _ _ (by rw [hseglen]; omega), hl]
    · try simp only
      omega
    · try simp only
      omega
    · try simp only
      have e : p.free_pool_count + desired
          = p.free_pool_count + (c.buf.drop (c.buf.length - desired)).length := by
        rw [hseglen]
      rw [e, liveWindow_write_wrapped_tail p _ ⟨hl, hh, hc⟩ (by omega)
        (by rw [hseglen]; omega)]
  · rw [if_neg hA]
    by_cases hB : p.free_pool_head + p.free_pool_count + desired > p.free_pool_capacity
    · rw [if_pos hB]
      set w := p.free_pool_capacity - (p.free_pool_head + p.free_pool_count) with hwdef
      have hwlt : w < desired := by omega
      have hwL : w ≤ c.buf.length := by omega
      have hlen_take : (c.buf.take (c.buf.length - w)).length = c.buf.length - w := by
        rw [List.length_take]; omega
      have hlenB : (c.buf.drop (c.buf.length - w)).length = w := by
        rw [List.length_drop]; omega
      have hlenA : ((c.buf.take (c.buf.length - w)).drop
          ((c.buf.take (c.buf.length - w)).length - (desired - w))).length
          = desired - w := by
        rw [List.length_drop, hlen_take]; omega
      have hbuf : (c.buf.take (c.buf.length - w)).take
            ((c.buf.take (c.buf.length - w)).length - (desired - w))
          = c.buf.take (c.buf.length - desired) := by
        rw [hlen_take, List.take_take]
        have e0 : min (c.buf.length - w - (desired - w)) (c.buf.length - w)
            = c.buf.length - desired := by omega
        rw [e0]
      rw [hbuf]
      refine ⟨_, rfl, rfl, rfl, rfl, ⟨?_, ?_, ?_⟩, ?_⟩
      · try simp only
        rw [writeSeg_length _ _ _ (by
          rw [hlenA, writeSeg_length _ _ _ (by rw [hlenB]; omega)]
          omega)]
        rw [writeSeg_length _ _ _ (by rw [hlenB]; omega), hl]
      · try simp only
        omega
      · try simp only
        omega
      · try simp only
        have ecount : p.free_pool_count + desired
            = p.free_pool_count + ((c.buf.drop (c.buf.length - w)).length
              + ((c.buf.take (c.buf.length - w)).drop
                ((c.buf.take (c.buf.length - w)).length - (desired - w))).length) := by
          rw [hlenB, hlenA]; omega
        rw [ecount, liveWindow_write_wrap p _ _ ⟨hl, hh, hc⟩ (by omega) (by rw [hlenB])
          (by rw [hlenB, hlenA]; omega)]
        have hsegB : c.buf.drop (c.buf.length - w)
            = (c.buf.drop (c.buf.length - desired)).drop (desired - w) := by
          rw [List.drop_drop]
          have e4 : c.buf.length - desired + (desired - w) = c.buf.length - w := by
            omega
          rw [e4]
        have hsegA : (c.buf.take (c.buf.length - w)).drop
              ((c.buf.take (c.buf.length - w)).length - (desired - w))
            = (c.buf.drop (c.buf.length - desired)).take (desired - w) := by
          rw [hlen_take]
          have e1 : c.buf.length - w - (desired - w) = c.buf.length - desired := by
            omega
          rw [e1, drop_take_comm]
          have e3 : c.buf.length - w - (c.buf.length - desired) = desired - w := by
            omega
          rw [e3]
        rw [List.append_assoc, hsegB, hsegA]
        refine List.Perm.append_left _ ?_
        have e2 := List.take_append_drop (desired - w) (c.buf.drop (c.buf.length - desired))
        exact List.perm_append_comm.trans (by rw [e2])
    · rw [if_neg hB]
      refine ⟨_, rfl, rfl, rfl, rfl, ⟨?_, ?_, ?_⟩, ?_⟩
      · try simp only
        rw [writeSeg_length _ _ _ (by rw [hseglen]; omega), hl]
      · try simp only
        omega
      · try simp only
        omega
      · try simp only
        have e : p.free_pool_count + desired
            = p.free_pool_count + (c.buf.drop (c.buf.length - desired)).length := by
          rw [hseglen]
        rw [e, liveWindow_write_nowrap p _ ⟨hl, hh, hc⟩ (by rw [hseglen]; omega)]

/-- Full characterization of a successful `grab`: it returns OK, appends the
first `min desired free_pool_count` elements of the live window to the chunk
in order, and the remaining live window is exactly the rest. -/
theorem grab_spec (desired : Nat) (p : PagePool) (c : PagePoolOffsetChunk)
    (hwf : PoolWf p) (hpos : p.free_pool_count ≠ 0) :
    (grab desired p c).1 = ErrorCode.kErrorCodeOk ∧
    (grab desired p c).2.2.capacity = c.capacity ∧
    (grab desired p c).2.2.buf
      = c.buf ++ (liveWindow p).take (min desired p.free_pool_count) ∧
    (grab desired p c).2.1.free_pool = p.free_pool ∧
    (grab desired p c).2.1.free_pool_capacity = p.free_pool_capacity ∧
    (grab desired p c).2.1.free_pool_count
      = p.free_pool_count - min desired p.free_pool_count ∧
    PoolWf (grab desired p c).2.1 ∧
    liveWindow (grab desired p c).2.1
      = (liveWindow p).drop (min desired p.free_pool_count) := by
  obtain ⟨hl, hh, hc⟩ := hwf
  have hgc : min desired p.free_pool_count ≤ p.free_pool_count := Nat.min_le_right _ _
  simp only [grab, if_neg hpos]
  split_ifs with hwrap
  · dsimp only
    refine ⟨rfl, rfl, ?_, rfl, rfl, rfl, ⟨hl, by simp only; omega, by simp only; omega⟩, ?_⟩
    · rw [liveWindow_take_wrap p _ ⟨hl, hh, hc⟩ hgc (by omega)]
      simp [PagePoolOffsetChunk.push_back, List.append_assoc]
    · rw [liveWindow_drop_wrap p _ ⟨hl, hh, hc⟩ hgc (by omega)]
  · dsimp only
    refine ⟨rfl, rfl, ?_, rfl, rfl, rfl, ⟨hl, by simp only; omega, by simp only; omega⟩, ?_⟩
    · rw [liveWindow_take_nowrap p _ ⟨hl, hh, hc⟩ hgc (by omega)]
      simp [PagePoolOffsetChunk.push_back]
    · rw [liveWindow_drop_nowrap p _ ⟨hl, hh, hc⟩ hgc (by omega)]

/-! ### Closed system of one pool and a family of chunks -/

/-- A pool together with the caller-side chunks that exchange offsets with it. -/
structure PoolSys where
  pool : PagePool
  chunks : List PagePoolOffsetChunk
deriving DecidableEq

/-- An operation of the closed system: a `grab` or a `release` of `desired`
offsets against the chunk with index `idx`. -/
inductive PoolOp
  | grabOp (desired idx : Nat)
  | releaseOp (desired idx : Nat)
deriving DecidableEq

/-- All offsets currently held by the chunks. -/
def chunksFlat (cs : List PagePoolOffsetChunk) : List Nat :=
  (cs.map PagePoolOffsetChunk.buf).flatten

/-- One step of the closed system.  The preconditions of the respective call
(`chunk.size + desired ≤ chunk.capacity` for grab, `chunk.size ≥ desired`
for release) are checked; a trace violating them is rejected (`none`).
A grab on an empty pool is the recoverable `MemoryNoFreePages` failure: the
state is unchanged and nothing is grabbed.  A release that would overfill the
pool aborts the process, which also ends the trace (`none`).  The result
carries the number of offsets actually grabbed and released. -/
def sysStep (s : PoolSys) : PoolOp → Option (PoolSys × Nat × Nat)
  | PoolOp.grabOp d i =>
    match s.chunks[i]? with
    | none => none
    | some c =>
      if c.buf.length + d ≤ c.capacity then
        some (⟨(grab d s.pool c).2.1, s.chunks.set i (grab d s.pool c).2.2⟩,
          s.pool.free_pool_count - (grab d s.pool c).2.1.free_pool_count, 0)
      else none
  | PoolOp.releaseOp d i =>
    match s.chunks[i]? with
    | none => none
    | some c =>
      if d ≤ c.buf.length then
        match release d s.pool c with
        | Except.error _ => none
        | Except.ok pr => some (⟨pr.1, s.chunks.set i pr.2⟩, 0, d)
      else none

/-- Run a list of operations, accumulating the total number of offsets
actually grabbed and released. -/
def sysRun (s : PoolSys) : List PoolOp → Option (PoolSys × Nat × Nat)
  | [] => some (s, 0, 0)
  | op :: ops =>
    match sysStep s op with
    | none => none
    | some (s', g, r) =>
      match sysRun s' ops with
      | none => none
      | some (s'', g2, r2) => some (s'', g + g2, r + r2)

/-- The initial system: a freshly initialized pool and empty chunks with the
given capacities. -/
def initSys (pfp psize : Nat) (caps : List Nat) : PoolSys :=
  ⟨initPool pfp psize, caps.map (fun k => ⟨[], k⟩)⟩

/-- The global invariant: the pool is well-formed and the live window plus the
chunk contents form a permutation of the initial free list. -/
def SysInv (pfp psize : Nat) (s : PoolSys) : Prop :=
  PoolWf s.pool ∧
  s.pool.free_pool_capacity = psize - pfp ∧
  (liveWindow s.pool ++ chunksFlat s.chunks).Perm
    ((List.range (psize - pfp)).map (fun i => pfp + i))

theorem chunksFlat_append (a b : List PagePoolOffsetChunk) :
    chunksFlat (a ++ b) = chunksFlat a ++ chunksFlat b := by
  simp [chunksFlat]

theorem chunksFlat_cons (c : PagePoolOffsetChunk) (cs : List PagePoolOffsetChunk) :
    chunksFlat (c :: cs) = c.buf ++ chunksFlat cs := by
  simp [chunksFlat]

/-- Decomposition of the chunk family at a valid index. -/
theorem chunks_decomp (cs : List PagePoolOffsetChunk) (i : Nat)
    (c : PagePoolOffsetChunk) (h : cs[i]? = some c) :
    cs = cs.take i ++ c :: cs.drop (i + 1) := by
  obtain ⟨hlt, hget⟩ := List.getElem?_eq_some_iff.1 h
  conv_lhs => rw [← List.take_append_drop (i + 1) cs]
  rw [List.take_succ, h]
  simp

theorem chunks_set_decomp (cs : List PagePoolOffsetChunk) (i : Nat)
    (c c' : PagePoolOffsetChunk) (h : cs[i]? = some c) :
    cs.set i c' = cs.take i ++ c' :: cs.drop (i + 1) := by
  obtain ⟨hlt, hget⟩ := List.getElem?_eq_some_iff.1 h
  rw [List.set_eq_take_append_cons_drop, if_pos hlt]

/-- Shuffling lemma for a grab step: moving a prefix of the live window into
one chunk preserves the global multiset. -/
theorem perm_shuffle_grab (win cb A B : List Nat) (G : Nat) :
    (win.drop G ++ (A ++ ((cb ++ win.take G) ++ B))).Perm (win ++ (A ++ (cb ++ B))) := by
  rw [← Multiset.coe_eq_coe]
  have hw := List.take_append_drop G win
  conv_rhs => rw [← hw]
  simp only [← Multiset.coe_add]
  abel

/-- Shuffling lemma for a release step: moving the tail of one chunk into the
live window preserves the global multiset. -/
theorem perm_shuffle_release (win cb A B : List Nat) (n : Nat) :
    ((win ++ cb.drop n) ++ (A ++ (cb.take n ++ B))).Perm (win ++ (A ++ (cb ++ B))) := by
  rw [← Multiset.coe_eq_coe]
  have hw := List.take_append_drop n cb
  conv_rhs => rw [← hw]
  simp only [← Multiset.coe_add]
  abel

/-- One step of the closed system preserves the global invariant, and the
step's count change equals released minus grabbed. -/
theorem sysStep_inv (pfp psize : Nat) (s s' : PoolSys) (op : PoolOp) (g r : Nat)
    (hinv : SysInv pfp psize s) (hstep : sysStep s op = some (s', g, r)) :
    SysInv pfp psize s' ∧
    s'.pool.free_pool_count + g = s.pool.free_pool_count + r := by
  obtain ⟨hwf, hcapeq, hperm⟩ := hinv
  have hwinlen : (liveWindow s.pool).length = s.pool.free_pool_count :=
    liveWindow_length _ hwf
  have hlen := hperm.length_eq
  rw [List.length_append, List.length_map, List.length_range, hwinlen] at hlen
  cases op with
  | grabOp d i =>
    cases hidx : s.chunks[i]? with
    | none => simp [sysStep, hidx] at hstep
    | some c =>
      simp only [sysStep, hidx] at hstep
      by_cases hpre : c.buf.length + d ≤ c.capacity
      · rw [if_pos hpre] at hstep
        have hflat : chunksFlat s.chunks
            = chunksFlat (s.chunks.take i)
              ++ (c.buf ++ chunksFlat (s.chunks.drop (i + 1))) := by
          conv_lhs => rw [chunks_decomp _ _ _ hidx]
          rw [chunksFlat_append, chunksFlat_cons]
        by_cases hzero : s.pool.free_pool_count = 0
        · simp only [grab, if_pos hzero, Nat.sub_self, Option.some.injEq,
            Prod.mk.injEq] at hstep
          obtain ⟨rfl, rfl, rfl⟩ := hstep
          refine ⟨⟨hwf, hcapeq, ?_⟩, by simp only <;> omega⟩
          rw [chunks_set_decomp _ _ _ _ hidx, ← chunks_decomp _ _ _ hidx]
          exact hperm
        · obtain ⟨hok, hcap2, hbuf, hfp, hcap3, hcnt, hwf2, hwin⟩ :=
            grab_spec d s.pool c hwf hzero
          have hG : min d s.pool.free_pool_count ≤ s.pool.free_pool_count :=
            Nat.min_le_right _ _
          simp only [Option.some.injEq, Prod.mk.injEq] at hstep
          obtain ⟨rfl, rfl, rfl⟩ := hstep
          refine ⟨⟨hwf2, by rw [hcap3, hcapeq], ?_⟩, by simp only <;> omega⟩
          rw [hwin, chunks_set_decomp _ _ _ _ hidx, chunksFlat_append, chunksFlat_cons,
            hbuf]
          refine (perm_shuffle_grab _ _ _ _ _).trans ?_
          rw [← hflat]
          exact hperm
      · rw [if_neg hpre] at hstep
        exact absurd hstep (by simp)
  | releaseOp d i =>
    cases hidx : s.chunks[i]? with
    | none => simp [sysStep, hidx] at hstep
    | some c =>
      simp only [sysStep, hidx] at hstep
      by_cases hpre : d ≤ c.buf.length
      · rw [if_pos hpre] at hstep
        have hflat : chunksFlat s.chunks
            = chunksFlat (s.chunks.take i)
              ++ (c.buf ++ chunksFlat (s.chunks.drop (i + 1))) := by
          conv_lhs => rw [chunks_decomp _ _ _ hidx]
          rw [chunksFlat_append, chunksFlat_cons]
        have hclen : c.buf.length ≤ (chunksFlat s.chunks).length := by
          rw [hflat]
          simp only [List.length_append]
          omega
        have hcapok : s.pool.free_pool_count + d ≤ s.pool.free_pool_capacity := by
          omega
        obtain ⟨p', hrel, hcap3, hhead, hcnt, hwf2, hwin⟩ :=
          release_spec d s.pool c hwf hpre hcapok
        rw [hrel] at hstep
        simp only [Option.some.injEq, Prod.mk.injEq] at hstep
        obtain ⟨rfl, rfl, rfl⟩ := hstep
        refine ⟨⟨hwf2, by rw [hcap3, hcapeq], ?_⟩, by simp only <;> omega⟩
        rw [chunks_set_decomp _ _ _ _ hidx, chunksFlat_append, chunksFlat_cons]
        simp only
        refine ((hwin.append_right _).trans (perm_shuffle_release _ _ _ _ _)).trans ?_
        rw [← hflat]
        exact hperm
      · rw [if_neg hpre] at hstep
        exact absurd hstep (by simp)

/-- Running any operation list preserves the invariant and accumulates the
conservation equation. -/
theorem sysRun_inv (pfp psize : Nat) (ops : List PoolOp) (s sfin : PoolSys) (g r : Nat)
    (hinv : SysInv pfp psize s) (hrun : sysRun s ops = some (sfin, g, r)) :
    SysInv pfp psize sfin ∧
    sfin.pool.free_pool_count + g = s.pool.free_pool_count + r := by
  induction ops generalizing s g r with
  | nil =>
    simp only [sysRun, Option.some.injEq, Prod.mk.injEq] at hrun
    obtain ⟨rfl, rfl, rfl⟩ := hrun
    exact ⟨hinv, rfl⟩
  | cons op ops ih =>
    simp only [sysRun] at hrun
    cases hstep : sysStep s op with
    | none => rw [hstep] at hrun; simp at hrun
    | some t =>
      obtain ⟨s1, g1, r1⟩ := t
      rw [hstep] at hrun
      simp only at hrun
      cases hrun2 : sysRun s1 ops with
      | none => rw [hrun2] at hrun; simp at hrun
      | some t2 =>
        obtain ⟨s2, g2, r2⟩ := t2
        rw [hrun2] at hrun
        simp only [Option.some.injEq, Prod.mk.injEq] at hrun
        obtain ⟨rfl, rfl, rfl⟩ := hrun
        obtain ⟨hinv1, heq1⟩ := sysStep_inv pfp psize s s1 op g1 r1 hinv hstep
        obtain ⟨hinv2, heq2⟩ := ih s1 g2 r2 hinv1 hrun2
        exact ⟨hinv2, by omega⟩

/-- The initial system satisfies the invariant. -/
theorem initSys_inv (pfp psize : Nat) (caps : List Nat) :
    SysInv pfp psize (initSys pfp psize caps) := by
  refine ⟨⟨by simp [initSys, initPool], by simp [initSys, initPool], by simp [initSys, initPool]⟩, rfl, ?_⟩
  have hflat : chunksFlat (caps.map (fun k => (⟨[], k⟩ : PagePoolOffsetChunk))) = [] := by
    simp only [chunksFlat, List.flatten_eq_nil_iff, List.map_map, List.mem_map]
    rintro l ⟨k, hk, rfl⟩
    rfl
  have hwin : liveWindow (initPool pfp psize)
      = (List.range (psize - pfp)).map (fun i => pfp + i) := by
    unfold liveWindow initPool
    rw [if_pos (by simp)]
    simp only [slice, List.drop_zero]
    exact List.take_of_length_le (by simp)
  simp only [initSys]
  rw [hwin, hflat, List.append_nil]

/-- C1 (PagePool conservation): along every precondition-respecting trace of
grabs and releases starting from a freshly initialized pool, the free count
satisfies `count + grabbed = initial + released` (the conservation law in
Nat form), stays within capacity, and the live window holds pairwise-distinct
offsets in `[pages_for_free_pool, pool_size)`. -/
theorem pagePool_conservation (pfp psize : Nat) (caps : List Nat) (ops : List PoolOp)
    (sfin : PoolSys) (g r : Nat)
    (hrun : sysRun (initSys pfp psize caps) ops = some (sfin, g, r)) :
    sfin.pool.free_pool_count + g = (psize - pfp) + r ∧
    sfin.pool.free_pool_count ≤ sfin.pool.free_pool_capacity ∧
    (liveWindow sfin.pool).Nodup ∧
    (∀ x ∈ liveWindow sfin.pool, pfp ≤ x ∧ x < psize) := by
  obtain ⟨⟨⟨hwfl, hwfh, hwfc⟩, hcap, hperm⟩, heq⟩ :=
    sysRun_inv pfp psize ops _ sfin g r (initSys_inv pfp psize caps) hrun
  simp only [initSys, initPool] at heq
  have hnodup : ((List.range (psize - pfp)).map (fun i => pfp + i)).Nodup :=
    (List.nodup_range _).map (fun a b h => by omega)
  have hwnodup : (liveWindow sfin.pool ++ chunksFlat sfin.chunks).Nodup :=
    hperm.symm.nodup hnodup
  refine ⟨heq, hwfc, hwnodup.of_append_left, ?_⟩
  intro x hx
  have hx2 : x ∈ (List.range (psize - pfp)).map (fun i => pfp + i) :=
    hperm.mem_iff.1 (List.mem_append_left _ hx)
  obtain ⟨i, hi, rfl⟩ := List.mem_map.1 hx2
  rw [List.mem_range] at hi
  omega

/-! ### Claim theorems about the page pool -/

/-- C5: on a pool with free pages, `grab(desired, chunk)` (called under the
chunk-capacity precondition) succeeds, removes exactly
`min(desired, free_pool_count)` offsets from the head of the circular free
list, appends exactly those offsets to the chunk in order, and decreases
`free_pool_count` by that amount; a partial grant still returns success. -/
theorem grab_behavior (d : Nat) (p : PagePool) (c : PagePoolOffsetChunk)
    (hwf : PoolWf p) (hpos : 0 < p.free_pool_count)
    (hcap : c.buf.length + d ≤ c.capacity) :
    (grab d p c).1 = ErrorCode.kErrorCodeOk ∧
    (grab d p c).2.2.buf = c.buf ++ (liveWindow p).take (min d p.free_pool_count) ∧
    liveWindow (grab d p c).2.1 = (liveWindow p).drop (min d p.free_pool_count) ∧
    (grab d p c).2.1.free_pool_count
      = p.free_pool_count - min d p.free_pool_count := by
  obtain ⟨hok, hcap2, hbuf, hfp, hcap3, hcnt, hwf2, hwin⟩ :=
    grab_spec d p c hwf (by omega)
  exact ⟨hok, hbuf, hwin, hcnt⟩

/-- Concrete instance of C5 on a pool whose head has wrapped. -/
theorem grab_behavior_witness :
    (PoolWf ⟨[3, 4, 7, 5, 6, 7], 6, 4, 4⟩ ∧
      0 < (⟨[3, 4, 7, 5, 6, 7], 6, 4, 4⟩ : PagePool).free_pool_count ∧
      (⟨[9], 10⟩ : PagePoolOffsetChunk).buf.length + 3
        ≤ (⟨[9], 10⟩ : PagePoolOffsetChunk).capacity) ∧
    ((grab 3 ⟨[3, 4, 7, 5, 6, 7], 6, 4, 4⟩ ⟨[9], 10⟩).1 = ErrorCode.kErrorCodeOk ∧
     (grab 3 ⟨[3, 4, 7, 5, 6, 7], 6, 4, 4⟩ ⟨[9], 10⟩).2.2.buf
       = (⟨[9], 10⟩ : PagePoolOffsetChunk).buf
         ++ (liveWindow ⟨[3, 4, 7, 5, 6, 7], 6, 4, 4⟩).take
            (min 3 (⟨[3, 4, 7, 5, 6, 7], 6, 4, 4⟩ : PagePool).free_pool_count) ∧
     liveWindow (grab 3 ⟨[3, 4, 7, 5, 6, 7], 6, 4, 4⟩ ⟨[9], 10⟩).2.1
       = (liveWindow ⟨[3, 4, 7, 5, 6, 7], 6, 4, 4⟩).drop
            (min 3 (⟨[3, 4, 7, 5, 6, 7], 6, 4, 4⟩ : PagePool).free_pool_count) ∧
     (grab 3 ⟨[3, 4, 7, 5, 6, 7], 6, 4, 4⟩ ⟨[9], 10⟩).2.1.free_pool_count
       = (⟨[3, 4, 7, 5, 6, 7], 6, 4, 4⟩ : PagePool).free_pool_count
         - min 3 (⟨[3, 4, 7, 5, 6, 7], 6, 4, 4⟩ : PagePool).free_pool_count) :=
  ⟨⟨by decide, by decide, by decide⟩,
    grab_behavior 3 ⟨[3, 4, 7, 5, 6, 7], 6, 4, 4⟩ ⟨[9], 10⟩ (by decide) (by decide)
      (by decide)⟩

/-- C6: under the precondition `chunk.size ≥ desired`, `release` aborts with
the duplicate-page error exactly when appending would exceed the capacity;
otherwise it removes exactly `desired` offsets from the tail of the chunk,
appends them to the circular free list and increases the count by `desired`. -/
theorem release_behavior (d : Nat) (p : PagePool) (c : PagePoolOffsetChunk)
    (hwf : PoolWf p) (hpre : d ≤ c.buf.length) :
    (p.free_pool_capacity < p.free_pool_count + d →
      release d p c = Except.error ErrorCode.kErrorCodeMemoryDuplicatePage) ∧
    (p.free_pool_count + d ≤ p.free_pool_capacity →
      ∃ p', release d p c
          = Except.ok (p', { c with buf := c.buf.take (c.buf.length - d) }) ∧
        p'.free_pool_count = p.free_pool_count + d ∧
        (liveWindow p').Perm (liveWindow p ++ c.buf.drop (c.buf.length - d))) := by
  constructor
  · intro hover
    simp only [release,
      if_pos (show p.free_pool_count + d > p.free_pool_capacity by omega)]
  · intro hfits
    obtain ⟨p', hrel, hcap3, hhead, hcnt, hwf2, hwin⟩ :=
      release_spec d p c hwf hpre hfits
    exact ⟨p', hrel, hcnt, hwin⟩

/-- Concrete instance of C6 (both the abort side and the success side). -/
theorem release_behavior_witness :
    (PoolWf ⟨[3, 4, 5, 5, 6, 7], 6, 1, 2⟩ ∧
      4 ≤ (⟨[10, 11, 12, 13], 10⟩ : PagePoolOffsetChunk).buf.length) ∧
    (((⟨[3, 4, 5, 5, 6, 7], 6, 1, 2⟩ : PagePool).free_pool_capacity
        < (⟨[3, 4, 5, 5, 6, 7], 6, 1, 2⟩ : PagePool).free_pool_count + 4 →
      release 4 ⟨[3, 4, 5, 5, 6, 7], 6, 1, 2⟩ ⟨[10, 11, 12, 13], 10⟩
        = Except.error ErrorCode.kErrorCodeMemoryDuplicatePage) ∧
     ((⟨[3, 4, 5, 5, 6, 7], 6, 1, 2⟩ : PagePool).free_pool_count + 4
        ≤ (⟨[3, 4, 5, 5, 6, 7], 6, 1, 2⟩ : PagePool).free_pool_capacity →
      ∃ p', release 4 ⟨[3, 4, 5, 5, 6, 7], 6, 1, 2⟩ ⟨[10, 11, 12, 13], 10⟩
          = Except.ok (p', { (⟨[10, 11, 12, 13], 10⟩ : PagePoolOffsetChunk) with
              buf := (⟨[10, 11, 12, 13], 10⟩ : PagePoolOffsetChunk).buf.take
                ((⟨[10, 11, 12, 13], 10⟩ : PagePoolOffsetChunk).buf.length - 4) }) ∧
        p'.free_pool_count
          = (⟨[3, 4, 5, 5, 6, 7], 6, 1, 2⟩ : PagePool).free_pool_count + 4 ∧
        (liveWindow p').Perm (liveWindow ⟨[3, 4, 5, 5, 6, 7], 6, 1, 2⟩
          ++ (⟨[10, 11, 12, 13], 10⟩ : PagePoolOffsetChunk).buf.drop
            ((⟨[10, 11, 12, 13], 10⟩ : PagePoolOffsetChunk).buf.length - 4)))) :=
  ⟨⟨by decide, by decide⟩,
    release_behavior 4 ⟨[3, 4, 5, 5, 6, 7], 6, 1, 2⟩ ⟨[10, 11, 12, 13], 10⟩
      (by decide) (by decide)⟩

/-- C7: `grab` fails with `MemoryNoFreePages` if and only if the pool is empty
at the time of the call, and in that case pool and chunk are left unchanged. -/
theorem grab_noFreePages_iff (d : Nat) (p : PagePool) (c : PagePoolOffsetChunk)
    (hcap : c.buf.length + d ≤ c.capacity) :
    ((grab d p c).1 = ErrorCode.kErrorCodeMemoryNoFreePages
      ↔ p.free_pool_count = 0) ∧
    (p.free_pool_count = 0 →
      grab d p c = (ErrorCode.kErrorCodeMemoryNoFreePages, p, c)) := by
  constructor
  · constructor
    · intro h
      by_contra hne
      simp only [grab, if_neg hne] at h
      split_ifs at h <;> simp at h
    · intro h
      simp [grab, h]
  · intro h
    simp [grab, h]

/-- Concrete instance of C7 on an exhausted pool. -/
theorem grab_noFreePages_iff_witness :
    ((⟨[], 5⟩ : PagePoolOffsetChunk).buf.length + 2
      ≤ (⟨[], 5⟩ : PagePoolOffsetChunk).capacity) ∧
    (((grab 2 ⟨[3, 4, 7, 5, 6, 7], 6, 2, 0⟩ ⟨[], 5⟩).1
        = ErrorCode.kErrorCodeMemoryNoFreePages
      ↔ (⟨[3, 4, 7, 5, 6, 7], 6, 2, 0⟩ : PagePool).free_pool_count = 0) ∧
     ((⟨[3, 4, 7, 5, 6, 7], 6, 2, 0⟩ : PagePool).free_pool_count = 0 →
      grab 2 ⟨[3, 4, 7, 5, 6, 7], 6, 2, 0⟩ ⟨[], 5⟩
        = (ErrorCode.kErrorCodeMemoryNoFreePages,
           ⟨[3, 4, 7, 5, 6, 7], 6, 2, 0⟩, ⟨[], 5⟩))) :=
  ⟨by decide, grab_noFreePages_iff 2 ⟨[3, 4, 7, 5, 6, 7], 6, 2, 0⟩ ⟨[], 5⟩ (by decide)⟩

/-- C10: `grab(0, chunk)` on an empty pool still returns `MemoryNoFreePages`;
on a non-empty pool it returns OK and leaves pool and chunk unchanged. -/
theorem grab_zero_edge (p : PagePool) (c : PagePoolOffsetChunk) (hwf : PoolWf p) :
    (p.free_pool_count = 0 →
      grab 0 p c = (ErrorCode.kErrorCodeMemoryNoFreePages, p, c)) ∧
    (0 < p.free_pool_count →
      grab 0 p c = (ErrorCode.kErrorCodeOk, p, c)) := by
  obtain ⟨hl, hh, hc⟩ := hwf
  constructor
  · intro h
    simp [grab, h]
  · intro h
    simp only [grab, if_neg (show ¬ p.free_pool_count = 0 by omega)]
    rw [if_neg (show ¬ (p.free_pool_head + min 0 p.free_pool_count
      > p.free_pool_capacity) by simp; omega)]
    simp [PagePoolOffsetChunk.push_back, slice]

/-- Concrete instances of C10 for both sides. -/
theorem grab_zero_edge_witness :
    PoolWf ⟨[3, 4, 7, 5, 6, 7], 6, 4, 2⟩ ∧
    (((⟨[3, 4, 7, 5, 6, 7], 6, 4, 2⟩ : PagePool).free_pool_count = 0 →
      grab 0 ⟨[3, 4, 7, 5, 6, 7], 6, 4, 2⟩ ⟨[9], 4⟩
        = (ErrorCode.kErrorCodeMemoryNoFreePages, ⟨[3, 4, 7, 5, 6, 7], 6, 4, 2⟩,
           ⟨[9], 4⟩)) ∧
     (0 < (⟨[3, 4, 7, 5, 6, 7], 6, 4, 2⟩ : PagePool).free_pool_count →
      grab 0 ⟨[3, 4, 7, 5, 6, 7], 6, 4, 2⟩ ⟨[9], 4⟩
        = (ErrorCode.kErrorCodeOk, ⟨[3, 4, 7, 5, 6, 7], 6, 4, 2⟩, ⟨[9], 4⟩))) :=
  ⟨by decide, grab_zero_edge ⟨[3, 4, 7, 5, 6, 7], 6, 4, 2⟩ ⟨[9], 4⟩ (by decide)⟩

/-- C8: grabbing `n` offsets into an empty chunk and releasing the grabbed
amount back restores `free_pool_count` and the set of free offsets (the live
window up to permutation). -/
theorem pagePool_roundTrip (n : Nat) (p : PagePool) (hwf : PoolWf p) :
    ∃ p2 c2,
      release (grab n p ⟨[], n⟩).2.2.buf.length (grab n p ⟨[], n⟩).2.1
          (grab n p ⟨[], n⟩).2.2 = Except.ok (p2, c2) ∧
      p2.free_pool_count = p.free_pool_count ∧
      (liveWindow p2).Perm (liveWindow p) := by
  obtain ⟨hl, hh, hc⟩ := hwf
  by_cases hz : p.free_pool_count = 0
  · have hg : grab n p ⟨[], n⟩ = (ErrorCode.kErrorCodeMemoryNoFreePages, p, ⟨[], n⟩) := by
      simp [grab, hz]
    rw [hg]
    obtain ⟨p', hrel, hcap3, hhead, hcnt, hwf2, hwin⟩ :=
      release_spec 0 p ⟨[], n⟩ ⟨hl, hh, hc⟩ (by simp) (by omega)
    simp only [List.length_nil] at hrel hwin ⊢
    refine ⟨p', _, hrel, by omega, ?_⟩
    simpa using hwin
  · obtain ⟨hok, hcap2, hbuf, hfp, hcap3, hcnt, hwf2, hwin⟩ :=
      grab_spec n p ⟨[], n⟩ ⟨hl, hh, hc⟩ hz
    have hGle : min n p.free_pool_count ≤ p.free_pool_count := Nat.min_le_right _ _
    have hwl : (liveWindow p).length = p.free_pool_count :=
      liveWindow_length p ⟨hl, hh, hc⟩
    simp only [List.nil_append] at hbuf
    have hbuflen : (grab n p ⟨[], n⟩).2.2.buf.length = min n p.free_pool_count := by
      rw [hbuf, List.length_take, hwl]
      omega
    obtain ⟨p2, hrel, hrcap, hrhead, hrcnt, hrwf, hrwin⟩ :=
      release_spec (min n p.free_pool_count) (grab n p ⟨[], n⟩).2.1
        (grab n p ⟨[], n⟩).2.2 hwf2 (by omega) (by rw [hcnt, hcap3]; omega)
    rw [hbuflen]
    refine ⟨p2, _, hrel, by omega, ?_⟩
    have hdrop : (grab n p ⟨[], n⟩).2.2.buf.drop
        ((grab n p ⟨[], n⟩).2.2.buf.length - min n p.free_pool_count)
        = (liveWindow p).take (min n p.free_pool_count) := by
      rw [hbuflen, Nat.sub_self, List.drop_zero, hbuf]
    rw [hdrop, hwin] at hrwin
    refine hrwin.trans ?_
    refine List.perm_append_comm.trans ?_
    rw [List.take_append_drop]

/-- Concrete instance of C8 on a pool whose window wraps. -/
theorem pagePool_roundTrip_witness :
    PoolWf ⟨[3, 4, 7, 5, 6, 7], 6, 4, 4⟩ ∧
    (∃ p2 c2,
      release (grab 3 ⟨[3, 4, 7, 5, 6, 7], 6, 4, 4⟩ ⟨[], 3⟩).2.2.buf.length
          (grab 3 ⟨[3, 4, 7, 5, 6, 7], 6, 4, 4⟩ ⟨[], 3⟩).2.1
          (grab 3 ⟨[3, 4, 7, 5, 6, 7], 6, 4, 4⟩ ⟨[], 3⟩).2.2 = Except.ok (p2, c2) ∧
      p2.free_pool_count = (⟨[3, 4, 7, 5, 6, 7], 6, 4, 4⟩ : PagePool).free_pool_count ∧
      (liveWindow p2).Perm (liveWindow ⟨[3, 4, 7, 5, 6, 7], 6, 4, 4⟩)) :=
  ⟨by decide, pagePool_roundTrip 3 ⟨[3, 4, 7, 5, 6, 7], 6, 4, 4⟩ (by decide)⟩

/-- Concrete instance of C1: a six-operation trace exercising partial grants,
the failed-grab path and both wrap-arounds. -/
theorem pagePool_conservation_witness :
    sysRun (initSys 2 8 [4, 3])
        [PoolOp.grabOp 3 0, PoolOp.releaseOp 2 0, PoolOp.grabOp 3 1,
         PoolOp.grabOp 2 0, PoolOp.grabOp 1 0, PoolOp.releaseOp 1 1]
      = some (⟨⟨[3, 4, 7, 5, 6, 7], 6, 2, 1⟩,
          [⟨[2, 3, 4], 4⟩, ⟨[5, 6], 3⟩]⟩, 8, 3) ∧
    ((⟨⟨[3, 4, 7, 5, 6, 7], 6, 2, 1⟩,
        [⟨[2, 3, 4], 4⟩, ⟨[5, 6], 3⟩]⟩ : PoolSys).pool.free_pool_count + 8
        = (8 - 2) + 3 ∧
     (⟨⟨[3, 4, 7, 5, 6, 7], 6, 2, 1⟩,
        [⟨[2, 3, 4], 4⟩, ⟨[5, 6], 3⟩]⟩ : PoolSys).pool.free_pool_count
        ≤ (⟨⟨[3, 4, 7, 5, 6, 7], 6, 2, 1⟩,
            [⟨[2, 3, 4], 4⟩, ⟨[5, 6], 3⟩]⟩ : PoolSys).pool.free_pool_capacity ∧
     (liveWindow (⟨⟨[3, 4, 7, 5, 6, 7], 6, 2, 1⟩,
        [⟨[2, 3, 4], 4⟩, ⟨[5, 6], 3⟩]⟩ : PoolSys).pool).Nodup ∧
     (∀ x ∈ liveWindow (⟨⟨[3, 4, 7, 5, 6, 7], 6, 2, 1⟩,
        [⟨[2, 3, 4], 4⟩, ⟨[5, 6], 3⟩]⟩ : PoolSys).pool, 2 ≤ x ∧ x < 8)) :=
  ⟨by decide,
    pagePool_conservation 2 8 [4, 3]
      [PoolOp.grabOp 3 0, PoolOp.releaseOp 2 0, PoolOp.grabOp 3 1,
       PoolOp.grabOp 2 0, PoolOp.grabOp 1 0, PoolOp.releaseOp 1 1]
      ⟨⟨[3, 4, 7, 5, 6, 7], 6, 2, 1⟩, [⟨[2, 3, 4], 4⟩, ⟨[5, 6], 3⟩]⟩ 8 3 (by decide)⟩

/-! ### Snapshot manager -/

/-- Modelled from the spec: `SnapshotId` is a 32-bit integer with `0` reserved
as null and a wrap-safe successor that skips `0` (`increment` lives in
`snapshot_id.hpp`, which is not among the sources). -/
def increment (id : Nat) : Nat :=
  if id + 1 ≥ 4294967296 then 1 else id + 1

/-- The fields of `Snapshot` that `handle_snapshot_triggered` fills in.
Epochs are naturals, `0` being the invalid (null) epoch per the spec's
`is_valid() iff nonzero`. -/
structure Snapshot where
  id_ : Nat
  base_epoch_ : Nat
  valid_until_epoch_ : Nat
  max_storage_id_ : Nat
deriving DecidableEq

/-- The snapshot-related fields of the shared control block. -/
structure ControlBlock where
  snapshot_epoch : Nat
  previous_snapshot_id : Nat
  immediate_snapshot_requested : Bool
deriving DecidableEq

/-- Externally observable actions performed by a snapshot run, in order. -/
inductive Event
  | writeMetadata (id : Nat)
  | writeSavepoint (id : Nat) (epoch : Nat)
  | pauseXct
  | resumeXct
  | publish (epoch : Nat)
  | broadcast
deriving DecidableEq

/-- The environment of one `handle_snapshot_triggered` run: what the external
collaborators (log manager, gleaner, filesystem, savepoint manager, and the
per-storage composers) return.  Error codes are naturals; `none` is success.
`new_root_pointers` is the key set of the gleaner's root-pointer map. -/
structure SnapEnv where
  durable_epoch : Nat
  max_storage_id : Nat
  new_root_pointers : List Nat
  glean_error : Option Nat
  metadata_error : Option Nat
  savepoint_error : Option Nat
  composer_error : Nat → Option Nat

/-- The id allocated for the next snapshot:
`previous_id == kNullSnapshotId ? 1 : increment(previous_id)`. -/
def newSnapshotId (cb : ControlBlock) : Nat :=
  if cb.previous_snapshot_id = 0 then 1 else increment cb.previous_snapshot_id

/-- The first composer error hit by the `replace_pointers` loop, which walks
storage ids `1..max_storage_id`, skips storages without a new root pointer,
and breaks at the first failing `composer.replace_pointers`. -/
def composerFirstError (env : SnapEnv) : Option Nat :=
  ((List.range env.max_storage_id).map (fun i => i + 1)).findSome?
    (fun id => if id ∈ env.new_root_pointers then env.composer_error id else none)

/-- `SnapshotManagerPimpl::replace_pointers`: pauses transaction acceptance,
runs the per-storage composers breaking at the first error, resumes
transaction acceptance unconditionally, and returns the first error if any. -/
def replace_pointers (env : SnapEnv) : Except Nat Unit × List Event :=
  (match composerFirstError env with
   | some e => Except.error e
   | none => Except.ok (),
   [Event.pauseXct, Event.resumeXct])

/-- `SnapshotManagerPimpl::handle_snapshot_triggered`: allocates the new
snapshot id, fills in the `Snapshot` from the durable epoch and the current
snapshot epoch, and runs the phases `glean_logs`, `snapshot_metadata`,
`snapshot_savepoint`, `replace_pointers` under `CHECK_ERROR` (the first error
returns immediately).  Only after all phases succeed does it record
`previous_snapshot_id`, publish `snapshot_epoch` and broadcast
`snapshot_taken`. -/
def handle_snapshot_triggered (cb : ControlBlock) (env : SnapEnv) :
    Except Nat Snapshot × ControlBlock × List Event :=
  let snapshot_id := newSnapshotId cb
  let snap : Snapshot :=
    ⟨snapshot_id, cb.snapshot_epoch, env.durable_epoch, env.max_storage_id⟩
  match env.glean_error with
  | some e => (Except.error e, cb, [])
  | none =>
    match env.metadata_error with
    | some e => (Except.error e, cb, [])
    | none =>
      match env.savepoint_error with
      | some e => (Except.error e, cb, [Event.writeMetadata snapshot_id])
      | none =>
        let rp := replace_pointers env
        let evs := [Event.writeMetadata snapshot_id,
          Event.writeSavepoint snapshot_id env.durable_epoch] ++ rp.2
        match rp.1 with
        | Except.error e => (Except.error e, cb, evs)
        | Except.ok _ =>
          (Except.ok snap,
           { cb with snapshot_epoch := env.durable_epoch,
                     previous_snapshot_id := snapshot_id },
           evs ++ [Event.publish env.durable_epoch, Event.broadcast])

/-- The error produced by the first failing phase, if any. -/
def firstPhaseError (env : SnapEnv) : Option Nat :=
  match env.glean_error with
  | some e => some e
  | none =>
    match env.metadata_error with
    | some e => some e
    | none =>
      match env.savepoint_error with
      | some e => some e
      | none => composerFirstError env

/-- The trigger decision of one wakeup of the master snapshot daemon
(`handle_snapshot` loop body): returns whether a snapshot is triggered and the
updated `immediate_snapshot_requested` flag.  Priority: current snapshot
already covers the durable epoch, then the immediate request, then the
interval timer (`now >= previous_snapshot_time + interval`). -/
def snapshot_trigger_check (snapshot_epoch durable_epoch : Nat)
    (immediate : Bool) (now previous_time interval : Nat) : Bool × Bool :=
  if snapshot_epoch ≠ 0 ∧ snapshot_epoch = durable_epoch then
    (false, immediate)
  else if immediate then
    (true, false)
  else if now ≥ previous_time + interval then
    (true, immediate)
  else
    (false, immediate)

/-- Reduction of a fully successful run. -/
theorem handle_ok_eq (cb : ControlBlock) (env : SnapEnv)
    (hg : env.glean_error = none) (hm : env.metadata_error = none)
    (hs : env.savepoint_error = none) (hr : composerFirstError env = none) :
    handle_snapshot_triggered cb env
      = (Except.ok ⟨newSnapshotId cb, cb.snapshot_epoch, env.durable_epoch,
          env.max_storage_id⟩,
         { cb with snapshot_epoch := env.durable_epoch,
                   previous_snapshot_id := newSnapshotId cb },
         [Event.writeMetadata (newSnapshotId cb),
          Event.writeSavepoint (newSnapshotId cb) env.durable_epoch,
          Event.pauseXct, Event.resumeXct,
          Event.publish env.durable_epoch, Event.broadcast]) := by
  unfold handle_snapshot_triggered replace_pointers
  rw [hg, hm, hs, hr]
  rfl

/-- Reduction of a run failing in `glean_logs`. -/
theorem handle_glean_error_eq (cb : ControlBlock) (env : SnapEnv) (e : Nat)
    (hg : env.glean_error = some e) :
    handle_snapshot_triggered cb env = (Except.error e, cb, []) := by
  unfold handle_snapshot_triggered
  rw [hg]

/-- Reduction of a run failing in `snapshot_metadata`. -/
theorem handle_metadata_error_eq (cb : ControlBlock) (env : SnapEnv) (e : Nat)
    (hg : env.glean_error = none) (hm : env.metadata_error = some e) :
    handle_snapshot_triggered cb env = (Except.error e, cb, []) := by
  unfold handle_snapshot_triggered
  rw [hg, hm]

/-- Reduction of a run failing in `snapshot_savepoint`. -/
theorem handle_savepoint_error_eq (cb : ControlBlock) (env : SnapEnv) (e : Nat)
    (hg : env.glean_error = none) (hm : env.metadata_error = none)
    (hs : env.savepoint_error = some e) :
    handle_snapshot_triggered cb env
      = (Except.error e, cb, [Event.writeMetadata (newSnapshotId cb)]) := by
  unfold handle_snapshot_triggered
  rw [hg, hm, hs]

/-- Reduction of a run failing in `replace_pointers`. -/
theorem handle_composer_error_eq (cb : ControlBlock) (env : SnapEnv) (e : Nat)
    (hg : env.glean_error = none) (hm : env.metadata_error = none)
    (hs : env.savepoint_error = none) (hr : composerFirstError env = some e) :
    handle_snapshot_triggered cb env
      = (Except.error e, cb,
         [Event.writeMetadata (newSnapshotId cb),
          Event.writeSavepoint (newSnapshotId cb) env.durable_epoch,
          Event.pauseXct, Event.resumeXct]) := by
  unfold handle_snapshot_triggered replace_pointers
  rw [hg, hm, hs, hr]
  rfl

/-- C3: `handle_snapshot_triggered` publishes a snapshot (updates
`snapshot_epoch` to the new `valid_until_epoch`, records
`previous_snapshot_id`, broadcasts `snapshot_taken`) if and only if all four
phases succeed; the publication events come after all phase events; if any
phase fails the function returns that phase's error with `snapshot_epoch` and
`previous_snapshot_id` unchanged and nothing published. -/
theorem snapshot_publish_iff (cb : ControlBlock) (env : SnapEnv) :
    ((∃ snap, (handle_snapshot_triggered cb env).1 = Except.ok snap)
      ↔ firstPhaseError env = none) ∧
    (firstPhaseError env = none →
      handle_snapshot_triggered cb env
        = (Except.ok ⟨newSnapshotId cb, cb.snapshot_epoch, env.durable_epoch,
            env.max_storage_id⟩,
           { cb with snapshot_epoch := env.durable_epoch,
                     previous_snapshot_id := newSnapshotId cb },
           [Event.writeMetadata (newSnapshotId cb),
            Event.writeSavepoint (newSnapshotId cb) env.durable_epoch,
            Event.pauseXct, Event.resumeXct,
            Event.publish env.durable_epoch, Event.broadcast])) ∧
    (∀ e, firstPhaseError env = some e →
      (handle_snapshot_triggered cb env).1 = Except.error e ∧
      (handle_snapshot_triggered cb env).2.1 = cb ∧
      Event.publish env.durable_epoch ∉ (handle_snapshot_triggered cb env).2.2 ∧
      Event.broadcast ∉ (handle_snapshot_triggered cb env).2.2) := by
  cases hg : env.glean_error with
  | some e =>
    rw [handle_glean_error_eq cb env e hg]
    simp only [firstPhaseError, hg]
    refine ⟨by simp, by simp, ?_⟩
    rintro e2 he
    rw [Option.some.injEq] at he
    subst he
    simp
  | none =>
    cases hm : env.metadata_error with
    | some e =>
      rw [handle_metadata_error_eq cb env e hg hm]
      simp only [firstPhaseError, hg, hm]
      refine ⟨by simp, by simp, ?_⟩
      rintro e2 he
      rw [Option.some.injEq] at he
      subst he
      simp
    | none =>
      cases hs : env.savepoint_error with
      | some e =>
        rw [handle_savepoint_error_eq cb env e hg hm hs]
        simp only [firstPhaseError, hg, hm, hs]
        refine ⟨by simp, by simp, ?_⟩
        rintro e2 he
        rw [Option.some.injEq] at he
        subst he
        simp
      | none =>
        cases hr : composerFirstError env with
        | some e =>
          rw [handle_composer_error_eq cb env e hg hm hs hr]
          simp only [firstPhaseError, hg, hm, hs, hr]
          refine ⟨by simp, by simp, ?_⟩
          rintro e2 he
          rw [Option.some.injEq] at he
          subst he
          simp
        | none =>
          rw [handle_ok_eq cb env hg hm hs hr]
          simp only [firstPhaseError, hg, hm, hs, hr]
          refine ⟨by simp, by simp, by simp⟩

/-- Concrete instance of C3 on a fully successful run. -/
theorem snapshot_publish_iff_witness :
    ((∃ snap, (handle_snapshot_triggered ⟨5, 3, false⟩
        ⟨9, 2, [2], none, none, none, fun _ => none⟩).1 = Except.ok snap)
      ↔ firstPhaseError ⟨9, 2, [2], none, none, none, fun _ => none⟩ = none) ∧
    (firstPhaseError ⟨9, 2, [2], none, none, none, fun _ => none⟩ = none →
      handle_snapshot_triggered ⟨5, 3, false⟩
          ⟨9, 2, [2], none, none, none, fun _ => none⟩
        = (Except.ok ⟨newSnapshotId ⟨5, 3, false⟩,
            (⟨5, 3, false⟩ : ControlBlock).snapshot_epoch, 9, 2⟩,
           (⟨9, newSnapshotId ⟨5, 3, false⟩, false⟩ : ControlBlock),
           [Event.writeMetadata (newSnapshotId ⟨5, 3, false⟩),
            Event.writeSavepoint (newSnapshotId ⟨5, 3, false⟩) 9,
            Event.pauseXct, Event.resumeXct,
            Event.publish 9, Event.broadcast])) ∧
    (∀ e, firstPhaseError ⟨9, 2, [2], none, none, none, fun _ => none⟩ = some e →
      (handle_snapshot_triggered ⟨5, 3, false⟩
        ⟨9, 2, [2], none, none, none, fun _ => none⟩).1 = Except.error e ∧
      (handle_snapshot_triggered ⟨5, 3, false⟩
        ⟨9, 2, [2], none, none, none, fun _ => none⟩).2.1 = ⟨5, 3, false⟩ ∧
      Event.publish 9 ∉ (handle_snapshot_triggered ⟨5, 3, false⟩
        ⟨9, 2, [2], none, none, none, fun _ => none⟩).2.2 ∧
      Event.broadcast ∉ (handle_snapshot_triggered ⟨5, 3, false⟩
        ⟨9, 2, [2], none, none, none, fun _ => none⟩).2.2) :=
  snapshot_publish_iff ⟨5, 3, false⟩ ⟨9, 2, [2], none, none, none, fun _ => none⟩

/-- C2 (amended): if a composer fails during the replace-pointers phase, the
run is aborted — `handle_snapshot_triggered` returns that error without
publishing `snapshot_epoch` or `previous_snapshot_id`, and transaction
acceptance is resumed — but the metadata file and the savepoint for that
snapshot have already been written by the earlier phases. -/
theorem replace_error_aborts (cb : ControlBlock) (env : SnapEnv) (e : Nat)
    (hg : env.glean_error = none) (hm : env.metadata_error = none)
    (hs : env.savepoint_error = none) (hr : composerFirstError env = some e) :
    (handle_snapshot_triggered cb env).1 = Except.error e ∧
    (handle_snapshot_triggered cb env).2.1 = cb ∧
    Event.resumeXct ∈ (handle_snapshot_triggered cb env).2.2 ∧
    Event.publish env.durable_epoch ∉ (handle_snapshot_triggered cb env).2.2 ∧
    Event.broadcast ∉ (handle_snapshot_triggered cb env).2.2 ∧
    Event.writeMetadata (newSnapshotId cb) ∈ (handle_snapshot_triggered cb env).2.2 ∧
    Event.writeSavepoint (newSnapshotId cb) env.durable_epoch
      ∈ (handle_snapshot_triggered cb env).2.2 := by
  rw [handle_composer_error_eq cb env e hg hm hs hr]
  exact ⟨rfl, rfl, by simp, by simp, by simp, by simp, by simp⟩

/-- Concrete instance of the amended C2. -/
theorem replace_error_aborts_witness :
    ((⟨9, 1, [1], none, none, none, fun sid => if sid = 1 then some 7 else
        none⟩ : SnapEnv).glean_error = none ∧
     (⟨9, 1, [1], none, none, none, fun sid => if sid = 1 then some 7 else
        none⟩ : SnapEnv).metadata_error = none ∧
     (⟨9, 1, [1], none, none, none, fun sid => if sid = 1 then some 7 else
        none⟩ : SnapEnv).savepoint_error = none ∧
     composerFirstError ⟨9, 1, [1], none, none, none,
        fun sid => if sid = 1 then some 7 else none⟩ = some 7) ∧
    ((handle_snapshot_triggered ⟨5, 3, false⟩ ⟨9, 1, [1], none, none, none,
        fun sid => if sid = 1 then some 7 else none⟩).1 = Except.error 7 ∧
     (handle_snapshot_triggered ⟨5, 3, false⟩ ⟨9, 1, [1], none, none, none,
        fun sid => if sid = 1 then some 7 else none⟩).2.1 = ⟨5, 3, false⟩ ∧
     Event.resumeXct ∈ (handle_snapshot_triggered ⟨5, 3, false⟩
        ⟨9, 1, [1], none, none, none,
         fun sid => if sid = 1 then some 7 else none⟩).2.2 ∧
     Event.publish 9 ∉ (handle_snapshot_triggered ⟨5, 3, false⟩
        ⟨9, 1, [1], none, none, none,
         fun sid => if sid = 1 then some 7 else none⟩).2.2 ∧
     Event.broadcast ∉ (handle_snapshot_triggered ⟨5, 3, false⟩
        ⟨9, 1, [1], none, none, none,
         fun sid => if sid = 1 then some 7 else none⟩).2.2 ∧
     Event.writeMetadata (newSnapshotId ⟨5, 3, false⟩)
       ∈ (handle_snapshot_triggered ⟨5, 3, false⟩ ⟨9, 1, [1], none, none, none,
          fun sid => if sid = 1 then some 7 else none⟩).2.2 ∧
     Event.writeSavepoint (newSnapshotId ⟨5, 3, false⟩) 9
       ∈ (handle_snapshot_triggered ⟨5, 3, false⟩ ⟨9, 1, [1], none, none, none,
          fun sid => if sid = 1 then some 7 else none⟩).2.2) :=
  ⟨⟨rfl, rfl, rfl, by decide⟩,
    replace_error_aborts ⟨5, 3, false⟩
      ⟨9, 1, [1], none, none, none, fun sid => if sid = 1 then some 7 else none⟩ 7
      rfl rfl rfl (by decide)⟩

/-- C2 counterexample: a composer error mid replace-pointers run after which
the metadata file and the savepoint HAVE been written — refuting the claim's
conjunct that no new metadata file or savepoint is written for that
snapshot. -/
theorem replace_error_counterexample :
    (handle_snapshot_triggered ⟨5, 3, false⟩ ⟨9, 1, [1], none, none, none,
        fun sid => if sid = 1 then some 7 else none⟩).1 = Except.error 7 ∧
    Event.writeMetadata 4 ∈ (handle_snapshot_triggered ⟨5, 3, false⟩
        ⟨9, 1, [1], none, none, none,
         fun sid => if sid = 1 then some 7 else none⟩).2.2 ∧
    Event.writeSavepoint 4 9 ∈ (handle_snapshot_triggered ⟨5, 3, false⟩
        ⟨9, 1, [1], none, none, none,
         fun sid => if sid = 1 then some 7 else none⟩).2.2 := by
  refine ⟨rfl, by decide, by decide⟩

/-- A sequence of successful snapshot runs: each run starts from the control
block left by the previous one and sees a valid durable epoch strictly above
the current snapshot epoch (the invariant asserted on entry of
`handle_snapshot_triggered`), and all phases succeed. -/
inductive GoodRun : ControlBlock → List SnapEnv → List Snapshot → ControlBlock → Prop
  | nil (cb : ControlBlock) : GoodRun cb [] [] cb
  | cons (cb cb' cbf : ControlBlock) (env : SnapEnv) (envs : List SnapEnv)
      (snap : Snapshot) (snaps : List Snapshot) :
      0 < env.durable_epoch →
      cb.snapshot_epoch < env.durable_epoch →
      (handle_snapshot_triggered cb env).1 = Except.ok snap →
      (handle_snapshot_triggered cb env).2.1 = cb' →
      GoodRun cb' envs snaps cbf →
      GoodRun cb (env :: envs) (snap :: snaps) cbf

/-- Chain property over a snapshot sequence, relative to the predecessor's id
and epoch: strictly increasing ids, strictly increasing valid-until epochs,
and each snapshot's base epoch equal to the predecessor's valid-until epoch
(for the first snapshot: the control block's current snapshot epoch, which is
null for a fresh deployment). -/
def SnapChain : Nat → Nat → List Snapshot → Prop
  | _, _, [] => True
  | pid, pepoch, s :: rest =>
      pid < s.id_ ∧ pepoch < s.valid_until_epoch_ ∧ s.base_epoch_ = pepoch ∧
      SnapChain s.id_ s.valid_until_epoch_ rest

/-- Data of a successful run, extracted from the success of the whole
function. -/
theorem handle_ok_shape (cb : ControlBlock) (env : SnapEnv) (snap : Snapshot)
    (h : (handle_snapshot_triggered cb env).1 = Except.ok snap) :
    snap = ⟨newSnapshotId cb, cb.snapshot_epoch, env.durable_epoch,
      env.max_storage_id⟩ ∧
    (handle_snapshot_triggered cb env).2.1
      = { cb with snapshot_epoch := env.durable_epoch,
                  previous_snapshot_id := newSnapshotId cb } := by
  cases hg : env.glean_error with
  | some e => rw [handle_glean_error_eq cb env e hg] at h; simp at h
  | none =>
    cases hm : env.metadata_error with
    | some e => rw [handle_metadata_error_eq cb env e hg hm] at h; simp at h
    | none =>
      cases hs : env.savepoint_error with
      | some e => rw [handle_savepoint_error_eq cb env e hg hm hs] at h; simp at h
      | none =>
        cases hr : composerFirstError env with
        | some e =>
          rw [handle_composer_error_eq cb env e hg hm hs hr] at h
          simp at h
        | none =>
          rw [handle_ok_eq cb env hg hm hs hr] at h
          rw [handle_ok_eq cb env hg hm hs hr]
          simp only [Except.ok.injEq] at h
          exact ⟨h.symm, rfl⟩

/-- C4 (amended): across every sequence of successful snapshot runs in which
the id does not wrap around its 32-bit space, the `(id, valid_until_epoch)`
pairs are strictly increasing in both components and each snapshot's base
epoch is the previous snapshot's valid-until epoch (the control block's
snapshot epoch, null on a fresh deployment, for the first one). -/
theorem snapshot_monotonic (cb cbf : ControlBlock) (envs : List SnapEnv)
    (snaps : List Snapshot) (hrun : GoodRun cb envs snaps cbf)
    (hnowrap : cb.previous_snapshot_id + envs.length < 4294967296) :
    SnapChain cb.previous_snapshot_id cb.snapshot_epoch snaps := by
  induction hrun with
  | nil => trivial
  | cons cb cb' cbf env envs snap snaps hdv hde hok hcb hrest ih =>
    simp only [List.length_cons] at hnowrap
    obtain ⟨hsnap, hcb2⟩ := handle_ok_shape cb env snap hok
    have hcbeq : cb' = { cb with
        snapshot_epoch := env.durable_epoch,
        previous_snapshot_id := newSnapshotId cb } := by
      rw [← hcb, hcb2]
    subst hsnap
    refine ⟨?_, ?_, rfl, ?_⟩
    · simp only [newSnapshotId, increment]
      split_ifs <;> omega
    · exact hde
    · have hch := ih (by
        rw [hcbeq]
        simp only [newSnapshotId, increment]
        split_ifs <;> omega)
      rw [hcbeq] at hch
      exact hch

/-- Concrete instance of the amended C4: two successful runs from a fresh
deployment. -/
theorem snapshot_monotonic_witness :
    GoodRun ⟨0, 0, false⟩
        [⟨1, 0, [], none, none, none, fun _ => none⟩,
         ⟨2, 0, [], none, none, none, fun _ => none⟩]
        [⟨1, 0, 1, 0⟩, ⟨2, 1, 2, 0⟩] ⟨2, 2, false⟩ ∧
    (⟨0, 0, false⟩ : ControlBlock).previous_snapshot_id + 2 < 4294967296 ∧
    SnapChain (⟨0, 0, false⟩ : ControlBlock).previous_snapshot_id
      (⟨0, 0, false⟩ : ControlBlock).snapshot_epoch
      [⟨1, 0, 1, 0⟩, ⟨2, 1, 2, 0⟩] := by
  have grun : GoodRun ⟨0, 0, false⟩
      [⟨1, 0, [], none, none, none, fun _ => none⟩,
       ⟨2, 0, [], none, none, none, fun _ => none⟩]
      [⟨1, 0, 1, 0⟩, ⟨2, 1, 2, 0⟩] ⟨2, 2, false⟩ := by
    refine GoodRun.cons _ ⟨1, 1, false⟩ _ _ _ _ _ (by decide) (by decide) rfl rfl ?_
    refine GoodRun.cons _ ⟨2, 2, false⟩ _ _ _ _ _ (by decide) (by decide) rfl rfl ?_
    exact GoodRun.nil _
  exact ⟨grun, by decide, snapshot_monotonic _ _ _ _ grun (by decide)⟩

/-- C4 counterexample: with the spec's wrap-safe 32-bit `increment`, two
successive successful snapshots taken when the previous id is `2^32 - 2`
receive ids `2^32 - 1` and then `1`: the id component is not strictly
increasing. -/
theorem snapshot_monotonic_counterexample :
    GoodRun ⟨5, 4294967294, false⟩
        [⟨6, 0, [], none, none, none, fun _ => none⟩,
         ⟨7, 0, [], none, none, none, fun _ => none⟩]
        [⟨4294967295, 5, 6, 0⟩, ⟨1, 6, 7, 0⟩] ⟨7, 1, false⟩ ∧
    (⟨4294967295, 5, 6, 0⟩ : Snapshot).id_ = 4294967295 ∧
    (⟨1, 6, 7, 0⟩ : Snapshot).id_ = 1 ∧
    ¬ ((⟨4294967295, 5, 6, 0⟩ : Snapshot).id_ < (⟨1, 6, 7, 0⟩ : Snapshot).id_) := by
  refine ⟨?_, rfl, rfl, by decide⟩
  refine GoodRun.cons _ ⟨6, 4294967295, false⟩ _ _ _ _ _ (by decide) (by decide)
    rfl rfl ?_
  refine GoodRun.cons _ ⟨7, 1, false⟩ _ _ _ _ _ (by decide) (by decide) rfl rfl ?_
  exact GoodRun.nil _

/-- C9 (amended): the master daemon's wakeup checks the triggers in priority
order — (a) a valid snapshot epoch equal to the durable epoch means no
snapshot; otherwise (b) an immediate request triggers and clears the flag;
otherwise (c) a snapshot is triggered exactly when the wall clock has reached
`previous_snapshot_time + snapshot_interval_milliseconds`
(`now ≥ previous + interval`, not strictly exceeding). -/
theorem snapshot_trigger_priority (se de : Nat) (imm : Bool)
    (now prev interval : Nat) :
    (se ≠ 0 ∧ se = de →
      snapshot_trigger_check se de imm now prev interval = (false, imm)) ∧
    (¬ (se ≠ 0 ∧ se = de) → imm = true →
      snapshot_trigger_check se de imm now prev interval = (true, false)) ∧
    (¬ (se ≠ 0 ∧ se = de) → imm = false →
      ((snapshot_trigger_check se de imm now prev interval).1 = true
        ↔ prev + interval ≤ now) ∧
      (snapshot_trigger_check se de imm now prev interval).2 = false) := by
  unfold snapshot_trigger_check
  refine ⟨?_, ?_, ?_⟩
  · intro h
    rw [if_pos h]
  · intro h hi
    rw [if_neg h, hi, if_pos rfl]
  · intro h hi
    rw [if_neg h, hi, if_neg (by decide)]
    by_cases hn : now ≥ prev + interval
    · rw [if_pos hn]
      exact ⟨⟨fun _ => hn, fun _ => rfl⟩, rfl⟩
    · rw [if_neg hn]
      refine ⟨⟨?_, ?_⟩, rfl⟩
      · intro hf
        exact absurd hf (by decide)
      · intro hle
        exact absurd hle hn

/-- Concrete instance of the amended C9. -/
theorem snapshot_trigger_priority_witness :
    ((3 : Nat) ≠ 0 ∧ (3 : Nat) = 5 →
      snapshot_trigger_check 3 5 false 7 2 4 = (false, false)) ∧
    (¬ ((3 : Nat) ≠ 0 ∧ (3 : Nat) = 5) → false = true →
      snapshot_trigger_check 3 5 false 7 2 4 = (true, false)) ∧
    (¬ ((3 : Nat) ≠ 0 ∧ (3 : Nat) = 5) → false = false →
      ((snapshot_trigger_check 3 5 false 7 2 4).1 = true ↔ 2 + 4 ≤ 7) ∧
      (snapshot_trigger_check 3 5 false 7 2 4).2 = false) :=
  snapshot_trigger_priority 3 5 false 7 2 4

/-- C9 counterexample: at elapsed wall-clock time exactly equal to the
interval the code triggers a snapshot although the elapsed time does not
strictly exceed `snapshot_interval_milliseconds`. -/
theorem snapshot_trigger_counterexample :
    snapshot_trigger_check 0 5 false 100 0 100 = (true, false) ∧
    ¬ (100 - 0 > 100) := ⟨by decide, by decide⟩

end Foedus
